import Mathlib

/-!
# Verification of the portablemc task/installer core

Shallow embedding of the relevant parts of the repository:

* `src/core/portablemc/task.py` — `State`, `Task`, `Watcher`, `Installer`
  (the dictionary-backed typed store, the task list with its splice
  operations, and the sequential `install` run loop);
* `src/core/portablemc/fabric.py` — `FabricRoot`, `FabricInitTask.execute`,
  `FabricRepository`, `FabricResolveEvent`;
* `src/core/portablemc/cli/__init__.py` — `DownloadWatcher.on_event`
  (the per-worker speed/size aggregator).

Modelling conventions: Python `dict` is an insertion-ordered association
list with unique keys; the dynamically typed values stored in `State` are
drawn from a closed universe `Value` with a type tag `Value.ty` standing
for Python `type(value)`; exceptions are explicit (`PyError`), and a
method call with the wrong number of arguments is a `typeError`, as in
Python.  Python `float` speeds are modelled as exact numbers (the
watcher only assigns and sums them; float rounding is out of scope).  HTTP-backed lookups
(`FabricApi.request_fabric_loader_version`, from the absent `http.py`)
are modelled as an oracle parameter.
-/

/-- Tag standing for a Python class object used as a `State` key
(`type(value)` in `task.py`). -/
inductive PyType
  | fabricRoot
  | metadataRoot
  | versionRepositories
  | intTy
  | strTy
deriving DecidableEq, Repr

/-- Tag for the two `FabricApi` constants of `fabric.py`
(`FABRIC_API` and `QUILT_API`). -/
inductive ApiId
  | fabric
  | quilt
deriving DecidableEq, Repr

/-- Fields of `FabricRepository` (`fabric.py`): the api, the synthesized
version id and the two component versions. -/
structure FabricRepositoryV where
  api : ApiId
  version_id : String
  vanilla_version : String
  loader_version : String
deriving DecidableEq, Repr

/-- Closed universe of the dynamically typed values the claims store in
`State`.  `vFabricRoot` carries the fields of `FabricRoot` (`fabric.py`,
field `prefix` is rendered `pref` since that word is reserved here);
`vVersionRepositories` models the `VersionRepositories` mapping from
version id to repository. -/
inductive Value
  | vInt (n : Int)
  | vStr (s : String)
  | vFabricRoot (api : ApiId) (pref : String) (vanilla_version : String)
      (loader_version : Option String)
  | vMetadataRoot (version_id : String)
  | vVersionRepositories (repos : List (String × FabricRepositoryV))
deriving DecidableEq, Repr

/-- `type(value)`: the `State` key under which `State.insert` files a
value (`task.py`, line 35). -/
def Value.ty : Value → PyType
  | .vInt _ => .intTy
  | .vStr _ => .strTy
  | .vFabricRoot _ _ _ _ => .fabricRoot
  | .vMetadataRoot _ => .metadataRoot
  | .vVersionRepositories _ => .versionRepositories

/-- Python exceptions the embedded code can raise. -/
inductive PyError
  | keyError
  | indexError
  | typeError
  | exc (n : Nat)
deriving DecidableEq, Repr

/-- Python `dict` lookup (`dict.get`, returning `None` when absent). -/
def dictGet (k : PyType) : List (PyType × Value) → Option Value
  | [] => none
  | (k', v) :: rest => if k' = k then some v else dictGet k rest

/-- Python `dict` assignment `d[k] = v`: replace in place when the key is
present, append otherwise. -/
def dictInsert (k : PyType) (v : Value) : List (PyType × Value) → List (PyType × Value)
  | [] => [(k, v)]
  | (k', v') :: rest =>
      if k' = k then (k, v) :: rest else (k', v') :: dictInsert k v rest

/-- `State` (`task.py`): a dictionary associating a type to its instance. -/
structure State where
  data : List (PyType × Value)
deriving DecidableEq, Repr

/-- `State.get` (`task.py`, lines 22–28): `self.data.get(ty)`. -/
def State.get (s : State) (ty : PyType) : Option Value :=
  dictGet ty s.data

/-- `State.insert` (`task.py`, lines 30–35): `self.data[type(value)] = value`. -/
def State.insert (s : State) (v : Value) : State :=
  ⟨dictInsert v.ty v s.data⟩

/-- `State.__contains__` (`task.py`, lines 37–38): `ty in self.data`
(key membership). -/
def State.mem (s : State) (ty : PyType) : Bool :=
  s.data.any (fun p => p.1 == ty)

/-- `State.__getitem__` (`task.py`, lines 40–41): `self.data[ty]`, raising
`KeyError` when the key is absent. -/
def State.getitem (s : State) (ty : PyType) : Except PyError Value :=
  match dictGet ty s.data with
  | some v => .ok v
  | none => .error .keyError

/-- The dictionary invariant: at most one entry per key. -/
def State.wf (s : State) : Prop :=
  (s.data.map Prod.fst).Nodup

theorem dictInsert_cons_hit (k : PyType) (v : Value) (k₀ : PyType) (v₀ : Value)
    (tl : List (PyType × Value)) (h0 : k₀ = k) :
    dictInsert k v ((k₀, v₀) :: tl) = (k, v) :: tl := by
  simp [dictInsert, h0]

theorem dictInsert_cons_miss (k : PyType) (v : Value) (k₀ : PyType) (v₀ : Value)
    (tl : List (PyType × Value)) (h0 : k₀ ≠ k) :
    dictInsert k v ((k₀, v₀) :: tl) = (k₀, v₀) :: dictInsert k v tl := by
  simp [dictInsert, h0]

theorem dictGet_insert_self (k : PyType) (v : Value) (d : List (PyType × Value)) :
    dictGet k (dictInsert k v d) = some v := by
  induction d with
  | nil =>
      show (if k = k then some v else dictGet k []) = some v
      rw [if_pos rfl]
  | cons hd tl ih =>
      obtain ⟨k₀, v₀⟩ := hd
      by_cases h0 : k₀ = k
      · rw [dictInsert_cons_hit k v k₀ v₀ tl h0]
        show (if k = k then some v else dictGet k tl) = some v
        rw [if_pos rfl]
      · rw [dictInsert_cons_miss k v k₀ v₀ tl h0]
        show (if k₀ = k then some v₀ else dictGet k (dictInsert k v tl)) = some v
        rw [if_neg h0]
        exact ih

theorem dictGet_insert_other (k k' : PyType) (v : Value) (d : List (PyType × Value))
    (h : k' ≠ k) : dictGet k' (dictInsert k v d) = dictGet k' d := by
  induction d with
  | nil =>
      show (if k = k' then some v else dictGet k' []) = none
      rw [if_neg (Ne.symm h)]
      rfl
  | cons hd tl ih =>
      obtain ⟨k₀, v₀⟩ := hd
      by_cases h0 : k₀ = k
      · rw [dictInsert_cons_hit k v k₀ v₀ tl h0]
        show (if k = k' then some v else dictGet k' tl)
            = (if k₀ = k' then some v₀ else dictGet k' tl)
        rw [if_neg (Ne.symm h), if_neg (by rw [h0]; exact Ne.symm h)]
      · rw [dictInsert_cons_miss k v k₀ v₀ tl h0]
        show (if k₀ = k' then some v₀ else dictGet k' (dictInsert k v tl))
            = (if k₀ = k' then some v₀ else dictGet k' tl)
        rw [ih]

theorem dictInsert_keys_mem (k x : PyType) (v : Value) (d : List (PyType × Value))
    (hx : x ∈ (dictInsert k v d).map Prod.fst) : x = k ∨ x ∈ d.map Prod.fst := by
  induction d with
  | nil =>
      simp [dictInsert] at hx
      exact Or.inl hx
  | cons hd tl ih =>
      obtain ⟨k₀, v₀⟩ := hd
      by_cases h0 : k₀ = k
      · rw [dictInsert_cons_hit k v k₀ v₀ tl h0] at hx
        simp only [List.map_cons, List.mem_cons] at hx
        rcases hx with hx | hx
        · exact Or.inl hx
        · exact Or.inr (by simp only [List.map_cons, List.mem_cons]; exact Or.inr hx)
      · rw [dictInsert_cons_miss k v k₀ v₀ tl h0] at hx
        simp only [List.map_cons, List.mem_cons] at hx
        rcases hx with hx | hx
        · exact Or.inr (by simp only [List.map_cons, List.mem_cons]; exact Or.inl hx)
        · rcases ih hx with h1 | h1
          · exact Or.inl h1
          · exact Or.inr (by simp only [List.map_cons, List.mem_cons]; exact Or.inr h1)

theorem dictInsert_keys_nodup (k : PyType) (v : Value) (d : List (PyType × Value))
    (h : (d.map Prod.fst).Nodup) : ((dictInsert k v d).map Prod.fst).Nodup := by
  induction d with
  | nil => simp [dictInsert]
  | cons hd tl ih =>
      obtain ⟨k₀, v₀⟩ := hd
      simp only [List.map_cons, List.nodup_cons] at h
      by_cases h0 : k₀ = k
      · rw [dictInsert_cons_hit k v k₀ v₀ tl h0]
        simp only [List.map_cons, List.nodup_cons]
        exact ⟨h0 ▸ h.1, h.2⟩
      · rw [dictInsert_cons_miss k v k₀ v₀ tl h0]
        simp only [List.map_cons, List.nodup_cons]
        refine ⟨?_, ih h.2⟩
        intro hc
        rcases dictInsert_keys_mem k k₀ v tl hc with h1 | h1
        · exact h0 h1
        · exact h.1 h1

/-- C5: `State.insert` followed by `State.get` at `type(v)` returns `v`;
inserting a second value of the same type replaces the first; and the
store keeps at most one entry per type. -/
theorem State.insert_get_roundtrip (s : State) (v w : Value)
    (hwf : s.wf) (hty : w.ty = v.ty) :
    ((s.insert v).get v.ty = some v)
    ∧ (((s.insert v).insert w).get v.ty = some w)
    ∧ ((s.insert v).insert w).wf := by
  refine ⟨?_, ?_, ?_⟩
  · exact dictGet_insert_self v.ty v s.data
  · show dictGet v.ty (dictInsert w.ty w (dictInsert v.ty v s.data)) = some w
    rw [hty]
    exact dictGet_insert_self v.ty w (dictInsert v.ty v s.data)
  · exact dictInsert_keys_nodup w.ty w _ (dictInsert_keys_nodup v.ty v _ hwf)

/-- Witness for C5 at a concrete state and pair of same-typed values. -/
theorem State.insert_get_roundtrip_witness :
    ((State.mk []).insert (.vInt 1)).get PyType.intTy = some (.vInt 1)
    ∧ (((State.mk []).insert (.vInt 1)).insert (.vInt 2)).get PyType.intTy
        = some (.vInt 2) := by
  have h := State.insert_get_roundtrip (State.mk []) (.vInt 1) (.vInt 2)
    (by simp [State.wf]) rfl
  exact ⟨h.1, h.2.1⟩

/-- C6: `State.get` is total: it returns a value exactly when the type has
a stored instance (`ty in self.data`), and `none` otherwise — it never
raises, for any state contents. -/
theorem State.get_total (s : State) (ty : PyType) :
    (s.get ty).isSome = s.mem ty := by
  show (dictGet ty s.data).isSome = s.data.any (fun p => p.1 == ty)
  induction s.data with
  | nil => simp [dictGet]
  | cons hd tl ih =>
      obtain ⟨k, v⟩ := hd
      by_cases h : k = ty
      · subst h
        simp [dictGet]
      · rw [show dictGet ty ((k, v) :: tl) = dictGet ty tl from by simp [dictGet, h]]
        simp only [List.any_cons]
        rw [ih]
        simp [h]

/-! ## The `Installer` run loop (`task.py`) -/

/-- A task as run by `Installer` (`task.py`): its identity (`type(task)`,
here a numeric tag `id`) and its `execute` behavior, a state transformer
that may raise an exception.  Per `task.py` line 64, `execute(self, state)`
receives only the state: no watcher bus exists in `Installer`, so tasks
run by it emit no events. -/
structure PyTask where
  id : Nat
  run : State → State × Option PyError

/-- Observable happenings around a run: the watcher notifications and (as
a ghost marker) the entry into a task's `execute`. -/
inductive Ev
  | taskBegin (w : Nat) (t : Nat)
  | taskEnd (w : Nat) (t : Nat)
  | exec (t : Nat)
deriving DecidableEq, Repr

/-- `Installer.install` (`task.py`, lines 161–173).  `self._watchers` is a
Python `set` (lines 100, 147), whose iteration order is unspecified; that
order is passed explicitly as `ws` (it is fixed for the whole run, since
the set is not mutated during it).  For each task in list order: notify
`on_task_begin` to every watcher, call `task.execute(self._state)`, then
notify `on_task_end`; an exception raised by `execute` propagates
immediately, aborting the loop. -/
def Installer.install (ws : List Nat) : List PyTask → State → List Ev × State × Option PyError
  | [], st => ([], st, none)
  | t :: rest, st =>
      match (t.run st).2 with
      | some e =>
          (ws.map (fun w => Ev.taskBegin w t.id) ++ [Ev.exec t.id], (t.run st).1, some e)
      | none =>
          (ws.map (fun w => Ev.taskBegin w t.id)
              ++ Ev.exec t.id :: (ws.map (fun w => Ev.taskEnd w t.id)
                ++ (Installer.install ws rest (t.run st).1).1),
            (Installer.install ws rest (t.run st).1).2.1,
            (Installer.install ws rest (t.run st).1).2.2)

/-- The full event block of one successfully executed task. -/
def taskTrace (ws : List Nat) (t : PyTask) : List Ev :=
  ws.map (fun w => Ev.taskBegin w t.id)
    ++ Ev.exec t.id :: ws.map (fun w => Ev.taskEnd w t.id)

/-- A valid iteration order of the Python set holding the watchers: each
distinct registered watcher appears exactly once, in an unspecified
order — any permutation of the distinct registrations. -/
abbrev IsSetIteration (registered order : List Nat) : Prop :=
  order.Perm registered.dedup

theorem install_cons_fail (ws : List Nat) (t : PyTask) (rest : List PyTask) (st : State)
    (e : PyError) (h : (t.run st).2 = some e) :
    Installer.install ws (t :: rest) st
      = (ws.map (fun w => Ev.taskBegin w t.id) ++ [Ev.exec t.id], (t.run st).1, some e) := by
  simp only [Installer.install, h]

theorem install_cons_ok (ws : List Nat) (t : PyTask) (rest : List PyTask) (st : State)
    (h : (t.run st).2 = none) :
    Installer.install ws (t :: rest) st
      = (ws.map (fun w => Ev.taskBegin w t.id)
          ++ Ev.exec t.id :: (ws.map (fun w => Ev.taskEnd w t.id)
            ++ (Installer.install ws rest (t.run st).1).1),
        (Installer.install ws rest (t.run st).1).2.1,
        (Installer.install ws rest (t.run st).1).2.2) := by
  conv_lhs => rw [Installer.install]
  rw [h]

/-- C4: `Installer.install` processes tasks strictly in list order — for
each task every watcher is notified `on_task_begin`, then the task's
`execute` runs, then every watcher is notified `on_task_end`; an error
raised by an `execute` aborts the run immediately (the event trace stops
right after that task's begin notifications and `execute` entry, so no
later task runs and no `on_task_end` is delivered for the failing task)
and the error propagates to the caller. -/
theorem Installer.install_order_and_abort (ws : List Nat) (tasks : List PyTask) (st : State) :
    ((Installer.install ws tasks st).2.2 = none →
      (Installer.install ws tasks st).1 = tasks.flatMap (taskTrace ws))
    ∧ (∀ e, (Installer.install ws tasks st).2.2 = some e →
        ∃ pre t post, tasks = pre ++ t :: post
          ∧ (Installer.install ws pre st).2.2 = none
          ∧ (t.run (Installer.install ws pre st).2.1).2 = some e
          ∧ (Installer.install ws tasks st).1
              = (Installer.install ws pre st).1
                ++ ws.map (fun w => Ev.taskBegin w t.id) ++ [Ev.exec t.id]) := by
  induction tasks generalizing st with
  | nil =>
      refine ⟨fun _ => rfl, fun e he => ?_⟩
      simp [Installer.install] at he
  | cons t rest ih =>
      cases heq : (t.run st).2 with
      | some e0 =>
          rw [install_cons_fail ws t rest st e0 heq]
          refine ⟨fun h => by simp at h, fun e he => ?_⟩
          simp only [Option.some.injEq] at he
          subst he
          refine ⟨[], t, rest, rfl, rfl, ?_, ?_⟩
          · exact heq
          · simp [Installer.install]
      | none =>
          rw [install_cons_ok ws t rest st heq]
          obtain ⟨ih1, ih2⟩ := ih (t.run st).1
          constructor
          · intro h
            have htr := ih1 h
            show _ = (t :: rest).flatMap (taskTrace ws)
            rw [List.flatMap_cons, htr]
            simp [taskTrace]
          · intro e he
            obtain ⟨pre, t', post, hsplit, hpre, hrun, htrace⟩ := ih2 e he
            refine ⟨t :: pre, t', post, by rw [hsplit]; rfl, ?_, ?_, ?_⟩
            · rw [install_cons_ok ws t pre st heq]
              exact hpre
            · rw [install_cons_ok ws t pre st heq]
              exact hrun
            · rw [install_cons_ok ws t pre st heq]
              show _ ++ Ev.exec t.id :: (_ ++ (Installer.install ws rest (t.run st).1).1) = _
              rw [htrace]
              simp

/-- Concrete task list for the abort scenario: the second task raises. -/
def tasksAbortDemo : List PyTask :=
  [⟨0, fun st => (st, none)⟩, ⟨1, fun st => (st, some (PyError.exc 7))⟩,
   ⟨2, fun st => (st, none)⟩]

/-- Witness for C4: a run of three tasks whose second raises stops right
after that task's begin notification and `execute` entry, never reaching
the third task nor the failing task's `on_task_end`, and the error
propagates. -/
theorem Installer.install_order_and_abort_witness :
    (Installer.install [5] [⟨0, fun st => (st, none)⟩] (State.mk [])).1
      = [Ev.taskBegin 5 0, Ev.exec 0, Ev.taskEnd 5 0]
    ∧ (Installer.install [5] tasksAbortDemo (State.mk [])).1
      = [Ev.taskBegin 5 0, Ev.exec 0, Ev.taskEnd 5 0, Ev.taskBegin 5 1, Ev.exec 1]
    ∧ (Installer.install [5] tasksAbortDemo (State.mk [])).2.2 = some (PyError.exc 7) := by
  have h1 := (Installer.install_order_and_abort [5] [⟨0, fun st => (st, none)⟩]
    (State.mk [])).1 rfl
  have h2 := (Installer.install_order_and_abort [5] tasksAbortDemo
    (State.mk [])).2 (PyError.exc 7) rfl
  exact ⟨h1, rfl, rfl⟩

/-- C3 counterexample: watchers 1 and 2 registered in that order; the
reversed enumeration `[2, 1]` is a valid iteration order of the Python
set holding them, and the dispatched notifications then do not follow the
registration order. -/
theorem Installer.watcher_order_counterexample :
    IsSetIteration [1, 2] [2, 1]
    ∧ (Installer.install [2, 1] [⟨0, fun st => (st, none)⟩] (State.mk [])).1
        = [Ev.taskBegin 2 0, Ev.taskBegin 1 0, Ev.exec 0,
           Ev.taskEnd 2 0, Ev.taskEnd 1 0]
    ∧ [Ev.taskBegin 2 0, Ev.taskBegin 1 0] ≠ [Ev.taskBegin 1 0, Ev.taskBegin 2 0] :=
  ⟨by decide, rfl, by decide⟩

theorem count_map_taskBegin (l : List Nat) (w tid : Nat) :
    (l.map (fun x => Ev.taskBegin x tid)).count (Ev.taskBegin w tid) = l.count w := by
  induction l with
  | nil => rfl
  | cons a l ih =>
      rcases eq_or_ne w a with h | h
      · subst h
        simp [List.count_cons, ih]
      · simp [List.count_cons, ih, h]

theorem count_map_taskEnd (l : List Nat) (w tid : Nat) :
    (l.map (fun x => Ev.taskEnd x tid)).count (Ev.taskEnd w tid) = l.count w := by
  induction l with
  | nil => rfl
  | cons a l ih =>
      rcases eq_or_ne w a with h | h
      · subst h
        simp [List.count_cons, ih]
      · simp [List.count_cons, ih, h]

/-- C3 amended: dispatch is synchronous (the begin notifications, the
`execute` entry and the end notifications appear contiguously, in that
order, in the run's trace) and every registered watcher is notified
exactly once per boundary — but in the watcher set's iteration order,
which is an arbitrary enumeration of the set, not necessarily the
registration order. -/
theorem Installer.watcher_dispatch (registered order : List Nat)
    (h : IsSetIteration registered order) (w : Nat) (hw : w ∈ registered)
    (t : PyTask) (st : State) (hsucc : (t.run st).2 = none) :
    (Installer.install order [t] st).1 = taskTrace order t
    ∧ (order.map (fun x => Ev.taskBegin x t.id)).count (Ev.taskBegin w t.id) = 1
    ∧ (order.map (fun x => Ev.taskEnd x t.id)).count (Ev.taskEnd w t.id) = 1 := by
  have hcount : order.count w = 1 := by
    have hmem : w ∈ registered.dedup := List.mem_dedup.mpr hw
    have hnd : registered.dedup.Nodup := registered.nodup_dedup
    rw [h.count_eq]
    exact List.count_eq_one_of_mem hnd hmem
  refine ⟨?_, ?_, ?_⟩
  · rw [install_cons_ok order t [] st hsucc]
    simp [taskTrace, Installer.install]
  · rw [count_map_taskBegin]
    exact hcount
  · rw [count_map_taskEnd]
    exact hcount

/-- Witness for the amended C3 at the concrete registration `[1, 2]`,
iteration order `[2, 1]` and watcher 1. -/
theorem Installer.watcher_dispatch_witness :
    (Installer.install [2, 1] [⟨3, fun st => (st, none)⟩] (State.mk [])).1
        = taskTrace [2, 1] ⟨3, fun st => (st, none)⟩
    ∧ ([2, 1].map (fun x => Ev.taskBegin x 3)).count (Ev.taskBegin 1 3) = 1
    ∧ ([2, 1].map (fun x => Ev.taskEnd x 3)).count (Ev.taskEnd 1 3) = 1 :=
  Installer.watcher_dispatch [1, 2] [2, 1] (by decide) 1 (by decide)
    ⟨3, fun st => (st, none)⟩ (State.mk []) rfl

/-! ## Task splicing (`append_task` / `prepend_task`, `task.py`) -/

/-- Python `list.insert(i, x)` for a non-negative index (an index past the
end appends), as used by `Installer.insert_task` (`task.py`, line 110). -/
def pyInsert (l : List α) (i : Nat) (x : α) : List α :=
  l.take i ++ x :: l.drop i

/-- The `for i, task in enumerate(self._tasks)` loop of
`Installer.append_task` (`task.py`, lines 122–125), iterated with explicit
fuel.  Tasks are represented by their identity tag (`type(task)`), which
is all the loop inspects.  CPython's list iterator reads index `i` of the
live list — insertions made during the loop are visible — and stops when
`i` reaches the current length.  The loop variable `task` shadows the
method's parameter; `shadow` records its latest value.  On a match the
matched element itself is re-inserted right after position `i`
(`self.insert_task(task, i + 1)` with the shadowed `task`), and the loop
continues.  `none` models non-termination within `fuel` iterations. -/
def appendLoop (a : Nat) : Nat → Nat → List Nat → Option Nat → Option (List Nat × Option Nat)
  | 0, _, _, _ => none
  | fuel + 1, i, tasks, shadow =>
      if h : i < tasks.length then
        if tasks.get ⟨i, h⟩ = a then
          appendLoop a fuel (i + 1) (pyInsert tasks (i + 1) (tasks.get ⟨i, h⟩))
            (some (tasks.get ⟨i, h⟩))
        else
          appendLoop a fuel (i + 1) tasks (some (tasks.get ⟨i, h⟩))
      else
        some (tasks, shadow)

/-- Same for `Installer.prepend_task` (`task.py`, lines 137–140): on a
match the matched element is re-inserted at position `i`
(`self.insert_task(task, i)`). -/
def prependLoop (b : Nat) : Nat → Nat → List Nat → Option Nat → Option (List Nat × Option Nat)
  | 0, _, _, _ => none
  | fuel + 1, i, tasks, shadow =>
      if h : i < tasks.length then
        if tasks.get ⟨i, h⟩ = b then
          prependLoop b fuel (i + 1) (pyInsert tasks i (tasks.get ⟨i, h⟩))
            (some (tasks.get ⟨i, h⟩))
        else
          prependLoop b fuel (i + 1) tasks (some (tasks.get ⟨i, h⟩))
      else
        some (tasks, shadow)

/-- `Installer.append_task` (`task.py`, lines 113–126): run the loop when
`after` is given, then `self.insert_task(task, len(self._tasks))` — where
`task` is the last loop value when the loop ran at least once (variable
shadowing), and the parameter otherwise. -/
def append_task (tasks : List Nat) (task : Nat) (after : Option Nat) (fuel : Nat) :
    Option (List Nat) :=
  match after with
  | none => some (pyInsert tasks tasks.length task)
  | some a =>
      match appendLoop a fuel 0 tasks none with
      | none => none
      | some (tasks2, shadow) =>
          some (pyInsert tasks2 tasks2.length (shadow.getD task))

/-- `Installer.prepend_task` (`task.py`, lines 128–141): run the loop when
`before` is given, then `self.insert_task(task, 0)` with the same
shadowing. -/
def prepend_task (tasks : List Nat) (task : Nat) (before : Option Nat) (fuel : Nat) :
    Option (List Nat) :=
  match before with
  | none => some (pyInsert tasks 0 task)
  | some b =>
      match prependLoop b fuel 0 tasks none with
      | none => none
      | some (tasks2, shadow) =>
          some (pyInsert tasks2 0 (shadow.getD task))

/-- When a task of the anchor type is present at or after the cursor, the
`append_task` loop never terminates: each match re-inserts the anchor
element right after the cursor, so the next iteration matches again. -/
theorem appendLoop_anchor_diverges (a : Nat) :
    ∀ (fuel i : Nat) (tasks : List Nat) (shadow : Option Nat),
      a ∈ tasks.drop i → appendLoop a fuel i tasks shadow = none := by
  intro fuel
  induction fuel with
  | zero => intro i tasks shadow _; rfl
  | succ n ih =>
      intro i tasks shadow hmem
      have hi : i < tasks.length := by
        by_contra hge
        rw [List.drop_eq_nil_of_le (Nat.le_of_not_lt hge)] at hmem
        exact absurd hmem (List.not_mem_nil a)
      have hdrop : tasks.drop i = tasks.get ⟨i, hi⟩ :: tasks.drop (i + 1) :=
        List.drop_eq_getElem_cons hi
      simp only [appendLoop]
      rw [dif_pos hi]
      by_cases hm : tasks.get ⟨i, hi⟩ = a
      · rw [if_pos hm]
        apply ih
        have hlen : (tasks.take (i + 1)).length = i + 1 := by
          rw [List.length_take]
          omega
        show a ∈ (tasks.take (i + 1) ++ tasks.get ⟨i, hi⟩ :: tasks.drop (i + 1)).drop (i + 1)
        rw [List.drop_left' hlen]
        exact hm ▸ List.mem_cons_self _ _
      · rw [if_neg hm]
        apply ih
        rw [hdrop] at hmem
        rcases List.mem_cons.mp hmem with h1 | h1
        · exact absurd h1.symm hm
        · exact h1

/-- C1 (code bug): with an anchor type given, `append_task` /
`prepend_task` neither insert the new task adjacent to the anchor nor
fall back to a plain append/prepend of it.  The loop variable shadows the
`task` parameter: when the anchor is absent from a non-empty list the
call appends (resp. prepends) a duplicate of the last existing task and
drops the new one, and when the anchor is present the live-list
re-insertion makes the loop run forever (no fuel suffices).  Without an
anchor the plain append/prepend behaves as documented. -/
theorem append_prepend_relative_bug :
    append_task [1] 3 (some 2) 10 = some [1, 1]
    ∧ prepend_task [1] 3 (some 2) 10 = some [1, 1]
    ∧ append_task [1] 3 none 10 = some [1, 3]
    ∧ prepend_task [1] 3 none 10 = some [3, 1]
    ∧ ∀ fuel, append_task [2] 3 (some 2) fuel = none := by
  refine ⟨by decide, by decide, by decide, by decide, fun fuel => ?_⟩
  have h := appendLoop_anchor_diverges 2 fuel 0 [2] none (by decide)
  simp [append_task, h]

/-! ## The Task/Watcher calling convention (C2) -/

/-- Parameter count (besides `self`) of `Task.setup` as declared in
`task.py` line 55: `def setup(self, state)`. -/
def Task.setup_params : Nat := 1

/-- Parameter count of `Task.execute` as declared in `task.py` line 64:
`def execute(self, state)` — the state only, no watcher. -/
def Task.execute_params : Nat := 1

/-- Parameter count of `FabricInitTask.execute` as declared in
`fabric.py` line 70: `def execute(self, state, watcher)`. -/
def FabricInitTask.execute_params : Nat := 2

/-- Argument count `Installer` passes when invoking a task's `execute`
(`task.py` line 170: `task.execute(self._state)` — the state only). -/
def Installer.execute_args : Nat := 1

/-- Argument count `Installer.insert_task` passes to `task.setup`
(`task.py` line 111: `task.setup(self._state)`). -/
def Installer.setup_args : Nat := 1

/-- Parameter count of `Watcher.on_event` as declared in `task.py`
line 88: `def on_event(self)` — no event argument. -/
def Watcher.on_event_params : Nat := 0

/-- Argument count `FabricInitTask` passes to `watcher.on_event`
(`fabric.py` lines 80 and 83: `watcher.on_event(FabricResolveEvent(...))`). -/
def FabricInitTask.on_event_args : Nat := 1

/-- Outcome of a Python call to a fixed-arity method. -/
inductive CallCheck
  | ok
  | typeErrorBadArity
deriving DecidableEq, Repr

/-- Python call semantics for a method without default or variadic
parameters: `TypeError` unless the argument count matches the declared
parameter count. -/
def pyCallCheck (params args : Nat) : CallCheck :=
  if params = args then .ok else .typeErrorBadArity

/-- C2 (code bug): `Task.setup` does take the state, but the watcher-bus
calling convention claimed by the spec (and implemented by `fabric.py`
and the CLI watchers) is not what `task.py` implements:
`Installer.install` invokes `execute` with the state only, so calling
`FabricInitTask.execute(self, state, watcher)` through it is a
`TypeError`, and `Watcher.on_event` as declared in `task.py` accepts no
event argument, so `fabric.py`'s `watcher.on_event(event)` is likewise a
`TypeError` against it. -/
theorem task_watcher_api_mismatch :
    pyCallCheck Task.setup_params Installer.setup_args = .ok
    ∧ pyCallCheck Task.execute_params Installer.execute_args = .ok
    ∧ pyCallCheck FabricInitTask.execute_params Installer.execute_args = .typeErrorBadArity
    ∧ pyCallCheck Watcher.on_event_params FabricInitTask.on_event_args = .typeErrorBadArity
    ∧ Installer.execute_args = 1 := by
  decide

/-! ## `FabricInitTask.execute` (`fabric.py`) -/

/-- The event object `FabricResolveEvent` (`fabric.py`, lines 112–117). -/
structure FabricResolveEventV where
  api : ApiId
  vanilla_version : String
  loader_version : Option String
deriving DecidableEq, Repr

/-- Modelled from the spec: `VersionRepositories` lives in `vanilla.py`,
which is not among the sources; per the spec the variant task registers
"a matching repository/override object" for the synthesized identifier,
so its `insert(version_id, repository)` stores the repository under that
identifier (a string-keyed dictionary assignment). -/
def reposInsert (version_id : String) (r : FabricRepositoryV) :
    List (String × FabricRepositoryV) → List (String × FabricRepositoryV)
  | [] => [(version_id, r)]
  | (k, r0) :: rest =>
      if k = version_id then (version_id, r) :: rest
      else (k, r0) :: reposInsert version_id r rest

/-- Lookup in the repositories mapping. -/
def reposGet (version_id : String) :
    List (String × FabricRepositoryV) → Option FabricRepositoryV
  | [] => none
  | (k, r0) :: rest => if k = version_id then some r0 else reposGet version_id rest

theorem reposGet_insert_self (version_id : String) (r : FabricRepositoryV)
    (d : List (String × FabricRepositoryV)) :
    reposGet version_id (reposInsert version_id r d) = some r := by
  induction d with
  | nil =>
      show (if version_id = version_id then some r else none) = some r
      rw [if_pos rfl]
  | cons hd tl ih =>
      obtain ⟨k, r0⟩ := hd
      by_cases h0 : k = version_id
      · rw [show reposInsert version_id r ((k, r0) :: tl) = (version_id, r) :: tl from by
          simp [reposInsert, h0]]
        show (if version_id = version_id then some r else reposGet version_id tl) = some r
        rw [if_pos rfl]
      · rw [show reposInsert version_id r ((k, r0) :: tl)
              = (k, r0) :: reposInsert version_id r tl from by simp [reposInsert, h0]]
        show (if k = version_id then some r0
            else reposGet version_id (reposInsert version_id r tl)) = some r
        rw [if_neg h0]
        exact ih

/-- `FabricInitTask.execute` (`fabric.py`, lines 70–89), as the state and
event effects of one call.  The HTTP-backed
`FabricApi.request_fabric_loader_version` (via `http.py`, absent from the
sources) is the `oracle` parameter.  The watcher is modelled as the sink
collecting the `FabricResolveEvent`s passed to `watcher.on_event`
(returned in call order).  The in-place mutation of the
`VersionRepositories` object held by the state (line 89) is modelled by
re-storing the updated mapping under its key; an exception leaves the
mutations already performed (the `MetadataRoot` insertion of line 88) in
place and is returned as the third component. -/
def FabricInitTask.execute (oracle : ApiId → String → String) (st : State) :
    State × List FabricResolveEventV × Option PyError :=
  match st.get PyType.fabricRoot with
  | some (Value.vFabricRoot api pref vanilla loaderOpt) =>
      let loader : String :=
        match loaderOpt with
        | none => oracle api vanilla
        | some l => l
      let evs : List FabricResolveEventV :=
        match loaderOpt with
        | none => [⟨api, vanilla, none⟩, ⟨api, vanilla, some loader⟩]
        | some _ => [⟨api, vanilla, some loader⟩]
      let version_id := pref ++ "-" ++ vanilla ++ "-" ++ loader
      let st1 := st.insert (Value.vMetadataRoot version_id)
      match st1.getitem PyType.versionRepositories with
      | .error e => (st1, evs, some e)
      | .ok (Value.vVersionRepositories repos) =>
          (st1.insert (Value.vVersionRepositories
              (reposInsert version_id ⟨api, version_id, vanilla, loader⟩ repos)),
            evs, none)
      | .ok _ => (st1, evs, some PyError.typeError)
  | _ => (st, [], none)

/-- C7: when the `FabricRoot` marker is absent from the state,
`FabricInitTask.execute` returns immediately: the state is unchanged and
no event is emitted. -/
theorem FabricInitTask.execute_noop (oracle : ApiId → String → String) (st : State)
    (h : st.get PyType.fabricRoot = none) :
    FabricInitTask.execute oracle st = (st, [], none) := by
  unfold FabricInitTask.execute
  rw [h]

/-- Witness for C7 at the empty state. -/
theorem FabricInitTask.execute_noop_witness :
    FabricInitTask.execute (fun _ _ => "") (State.mk []) = (State.mk [], [], none) :=
  FabricInitTask.execute_noop (fun _ _ => "") (State.mk []) rfl

/-- The identifier synthesized at `fabric.py` line 86, the f-string
`prefix-vanillaVersion-loaderVersion`, with the loader version as
resolved by lines 79–81 (the stored one when present, else the api's
answer for the vanilla version). -/
def fabricVersionId (oracle : ApiId → String → String) (api : ApiId)
    (pref vanilla : String) (loaderOpt : Option String) : String :=
  pref ++ "-" ++ vanilla ++ "-" ++ loaderOpt.getD (oracle api vanilla)

/-- The `FabricRepository` constructed at `fabric.py` line 89. -/
def fabricRepositoryFor (oracle : ApiId → String → String) (api : ApiId)
    (pref vanilla : String) (loaderOpt : Option String) : FabricRepositoryV :=
  ⟨api, fabricVersionId oracle api pref vanilla loaderOpt, vanilla,
    loaderOpt.getD (oracle api vanilla)⟩

theorem getitem_insert_other (st : State) (v w : Value) (ty : PyType)
    (hty : ty ≠ v.ty) (h : st.get ty = some w) :
    (st.insert v).getitem ty = .ok w := by
  show (match dictGet ty (dictInsert v.ty v st.data) with
    | some v => Except.ok v
    | none => Except.error PyError.keyError) = Except.ok w
  rw [dictGet_insert_other v.ty ty v st.data hty]
  rw [show dictGet ty st.data = some w from h]

theorem getitem_insert_other_none (st : State) (v : Value) (ty : PyType)
    (hty : ty ≠ v.ty) (h : st.get ty = none) :
    (st.insert v).getitem ty = .error PyError.keyError := by
  show (match dictGet ty (dictInsert v.ty v st.data) with
    | some v => Except.ok v
    | none => Except.error PyError.keyError) = Except.error PyError.keyError
  rw [dictGet_insert_other v.ty ty v st.data hty]
  rw [show dictGet ty st.data = none from h]

/-- C8: with a `FabricRoot` of prefix `pref`, platform version `vanilla`
and loader version resolving to `l` present in the state, and a
`VersionRepositories` mapping present, `FabricInitTask.execute`
synthesizes the identifier `pref-vanilla-l`, stores it in the state as
the `MetadataRoot`, and registers the repository under exactly that
identifier, raising nothing. -/
theorem FabricInitTask.execute_registers (oracle : ApiId → String → String) (st : State)
    (api : ApiId) (pref vanilla : String) (loaderOpt : Option String)
    (repos : List (String × FabricRepositoryV))
    (hroot : st.get PyType.fabricRoot = some (Value.vFabricRoot api pref vanilla loaderOpt))
    (hrepos : st.get PyType.versionRepositories = some (Value.vVersionRepositories repos)) :
    (FabricInitTask.execute oracle st).2.2 = none
    ∧ (FabricInitTask.execute oracle st).1.get PyType.metadataRoot
        = some (Value.vMetadataRoot (fabricVersionId oracle api pref vanilla loaderOpt))
    ∧ (FabricInitTask.execute oracle st).1.get PyType.versionRepositories
        = some (Value.vVersionRepositories
            (reposInsert (fabricVersionId oracle api pref vanilla loaderOpt)
              (fabricRepositoryFor oracle api pref vanilla loaderOpt) repos))
    ∧ reposGet (fabricVersionId oracle api pref vanilla loaderOpt)
        (reposInsert (fabricVersionId oracle api pref vanilla loaderOpt)
          (fabricRepositoryFor oracle api pref vanilla loaderOpt) repos)
        = some (fabricRepositoryFor oracle api pref vanilla loaderOpt) := by
  cases loaderOpt with
  | none =>
      simp only [FabricInitTask.execute, hroot]
      rw [getitem_insert_other st
        (Value.vMetadataRoot (pref ++ "-" ++ vanilla ++ "-" ++ oracle api vanilla))
        (Value.vVersionRepositories repos) PyType.versionRepositories
        (by intro hcon; cases hcon) hrepos]
      refine ⟨rfl, ?_, ?_, reposGet_insert_self _ _ _⟩
      · show dictGet PyType.metadataRoot
          (dictInsert PyType.versionRepositories _
            (dictInsert PyType.metadataRoot _ st.data)) = _
        rw [dictGet_insert_other PyType.versionRepositories PyType.metadataRoot _ _
          (by intro hcon; cases hcon)]
        exact dictGet_insert_self _ _ _
      · exact dictGet_insert_self _ _ _
  | some l =>
      simp only [FabricInitTask.execute, hroot]
      rw [getitem_insert_other st
        (Value.vMetadataRoot (pref ++ "-" ++ vanilla ++ "-" ++ l))
        (Value.vVersionRepositories repos) PyType.versionRepositories
        (by intro hcon; cases hcon) hrepos]
      refine ⟨rfl, ?_, ?_, reposGet_insert_self _ _ _⟩
      · show dictGet PyType.metadataRoot
          (dictInsert PyType.versionRepositories _
            (dictInsert PyType.metadataRoot _ st.data)) = _
        rw [dictGet_insert_other PyType.versionRepositories PyType.metadataRoot _ _
          (by intro hcon; cases hcon)]
        exact dictGet_insert_self _ _ _
      · exact dictGet_insert_self _ _ _

/-- State holding a Fabric root with a pinned loader version and an empty
repositories mapping. -/
def fabricDemoState : State :=
  ⟨[(PyType.fabricRoot, Value.vFabricRoot ApiId.fabric "fabric" "1.20.1" (some "0.14.21")),
    (PyType.versionRepositories, Value.vVersionRepositories [])]⟩

/-- Witness for C8 at a concrete state: the synthesized identifier is the
hyphen-joined `fabric-1.20.1-0.14.21`. -/
theorem FabricInitTask.execute_registers_witness :
    (FabricInitTask.execute (fun _ _ => "") fabricDemoState).2.2 = none
    ∧ (FabricInitTask.execute (fun _ _ => "") fabricDemoState).1.get PyType.metadataRoot
        = some (Value.vMetadataRoot
            (fabricVersionId (fun _ _ => "") ApiId.fabric "fabric" "1.20.1" (some "0.14.21")))
    ∧ reposGet (fabricVersionId (fun _ _ => "") ApiId.fabric "fabric" "1.20.1" (some "0.14.21"))
        (reposInsert (fabricVersionId (fun _ _ => "") ApiId.fabric "fabric" "1.20.1" (some "0.14.21"))
          (fabricRepositoryFor (fun _ _ => "") ApiId.fabric "fabric" "1.20.1" (some "0.14.21")) [])
        = some (fabricRepositoryFor (fun _ _ => "") ApiId.fabric "fabric" "1.20.1" (some "0.14.21"))
    ∧ fabricVersionId (fun _ _ => "") ApiId.fabric "fabric" "1.20.1" (some "0.14.21")
        = "fabric-1.20.1-0.14.21" := by
  have h := FabricInitTask.execute_registers (fun _ _ => "") fabricDemoState
    ApiId.fabric "fabric" "1.20.1" (some "0.14.21") [] rfl rfl
  exact ⟨h.1, h.2.1, h.2.2.2, by decide⟩

/-- C10: the subscript accessor `state[ty]` (`State.__getitem__`), unlike
`State.get`, raises `KeyError` for every type with no stored instance;
in particular `FabricInitTask.execute`'s registration step (line 89,
`state[VersionRepositories].insert(...)`) requires a
`VersionRepositories` instance to be present and raises `KeyError` when
it is absent. -/
theorem State.getitem_absent_raises (st st2 : State) (ty : PyType)
    (oracle : ApiId → String → String) (api : ApiId) (pref vanilla : String)
    (loaderOpt : Option String)
    (h : st.get ty = none)
    (hroot : st2.get PyType.fabricRoot = some (Value.vFabricRoot api pref vanilla loaderOpt))
    (hrepos : st2.get PyType.versionRepositories = none) :
    st.getitem ty = .error PyError.keyError
    ∧ (FabricInitTask.execute oracle st2).2.2 = some PyError.keyError := by
  constructor
  · show (match dictGet ty st.data with
      | some v => Except.ok v
      | none => Except.error PyError.keyError) = Except.error PyError.keyError
    rw [show dictGet ty st.data = none from h]
  · cases loaderOpt with
    | none =>
        simp only [FabricInitTask.execute, hroot]
        rw [getitem_insert_other_none st2
          (Value.vMetadataRoot (pref ++ "-" ++ vanilla ++ "-" ++ oracle api vanilla))
          PyType.versionRepositories (by intro hcon; cases hcon) hrepos]
    | some l =>
        simp only [FabricInitTask.execute, hroot]
        rw [getitem_insert_other_none st2
          (Value.vMetadataRoot (pref ++ "-" ++ vanilla ++ "-" ++ l))
          PyType.versionRepositories (by intro hcon; cases hcon) hrepos]

/-- Witness for C10: the empty state and a state holding only a
`FabricRoot`. -/
theorem State.getitem_absent_raises_witness :
    (State.mk []).getitem PyType.versionRepositories = .error PyError.keyError
    ∧ (FabricInitTask.execute (fun _ _ => "")
        ⟨[(PyType.fabricRoot,
            Value.vFabricRoot ApiId.fabric "fabric" "1.20.1" (some "0.14.21"))]⟩).2.2
      = some PyError.keyError :=
  State.getitem_absent_raises (State.mk [])
    ⟨[(PyType.fabricRoot, Value.vFabricRoot ApiId.fabric "fabric" "1.20.1" (some "0.14.21"))]⟩
    PyType.versionRepositories (fun _ _ => "") ApiId.fabric "fabric" "1.20.1"
    (some "0.14.21") rfl rfl rfl

/-! ## `DownloadWatcher` aggregation (`cli/__init__.py`) -/

/-- `DownloadStartEvent` fields read by the watcher: entry count, total
byte size, and the number of download workers. -/
structure DownloadStartEventV where
  entries_count : Nat
  size : Nat
  threads_count : Nat
deriving DecidableEq, Repr

/-- `DownloadProgressEvent` fields read by the watcher: the reporting
worker, the cumulative completed-entry count, the byte delta since that
worker's last report (`size`), and its instantaneous speed.  Python float
speeds are modelled as exact numbers (only assignment and summation
occur). -/
structure DownloadProgressEventV where
  thread_id : Nat
  count : Nat
  size : Nat
  speed : ℤ
deriving DecidableEq, Repr

/-- The download events dispatched to the watcher. -/
inductive DlEvent
  | start (e : DownloadStartEventV)
  | progress (e : DownloadProgressEventV)
  | complete
deriving DecidableEq, Repr

/-- The mutable attributes of `DownloadWatcher` (`cli/__init__.py`, lines
273–280; the constructor only annotates them, so before the first start
event they are arbitrary). -/
structure DWState where
  entries_count : Nat
  total_size : Nat
  size : Nat
  speeds : List ℤ
deriving DecidableEq, Repr

/-- One progress line: the values interpolated into the
`download.progress` output (speed, count, total count, size). -/
structure ProgressReport where
  speed : ℤ
  count : Nat
  total_count : Nat
  size : Nat
deriving DecidableEq, Repr

/-- `DownloadWatcher.on_event` (`cli/__init__.py`, lines 282–299): a start
event resets the counters and allocates one speed slot per worker; a
progress event overwrites the reporting worker's slot, then reports
`sum(self.speeds)` and the accumulated `self.size`; assigning to a slot
out of range is an `IndexError`, as for a Python list. -/
def DownloadWatcher.on_event (s : DWState) :
    DlEvent → Except PyError (DWState × Option ProgressReport)
  | .start e =>
      .ok (⟨e.entries_count, e.size, 0, List.replicate e.threads_count 0⟩, none)
  | .progress e =>
      if e.thread_id < s.speeds.length then
        .ok ({ s with
                speeds := s.speeds.set e.thread_id e.speed,
                size := s.size + e.size },
          some ⟨(s.speeds.set e.thread_id e.speed).sum, e.count, s.entries_count,
            s.size + e.size⟩)
      else
        .error PyError.indexError
  | .complete => .ok (s, none)

/-- Feeding a sequence of events to the watcher, collecting the progress
reports in order; an exception aborts the run. -/
def DownloadWatcher.run (s : DWState) :
    List DlEvent → Except PyError (DWState × List ProgressReport)
  | [] => .ok (s, [])
  | ev :: evs =>
      match DownloadWatcher.on_event s ev with
      | .error err => .error err
      | .ok (s1, rep) =>
          match DownloadWatcher.run s1 evs with
          | .error err => .error err
          | .ok (s2, reps) => .ok (s2, rep.toList ++ reps)

/-- The speed most recently reported by worker `w` (0 before its first
report) — the spec-side notion the claim compares against. -/
def lastSpeed (w : Nat) (ps : List DownloadProgressEventV) : ℤ :=
  (((ps.filter (fun e => e.thread_id == w)).getLast?).map
    DownloadProgressEventV.speed).getD 0

/-- The claimed aggregate speed: the sum over all `W` workers of that
worker's most recently reported instantaneous speed. -/
def claimedSpeed (W : Nat) (ps : List DownloadProgressEventV) : ℤ :=
  ((List.range W).map (fun w => lastSpeed w ps)).sum

/-- The claimed cumulative size: the sum of all per-worker byte deltas
received so far. -/
def claimedSize (ps : List DownloadProgressEventV) : Nat :=
  (ps.map (fun e => e.size)).sum

theorem lastSpeed_append (w : Nat) (l : List DownloadProgressEventV)
    (e : DownloadProgressEventV) :
    lastSpeed w (l ++ [e]) = if e.thread_id = w then e.speed else lastSpeed w l := by
  unfold lastSpeed
  rw [List.filter_append]
  by_cases h : e.thread_id = w
  · rw [show List.filter (fun x => x.thread_id == w) [e] = [e] from by simp [h]]
    rw [List.getLast?_concat]
    rw [if_pos h]
    rfl
  · rw [show List.filter (fun x => x.thread_id == w) [e] = [] from by simp [h]]
    rw [List.append_nil]
    rw [if_neg h]

theorem speeds_set_eq (W : Nat) (f : Nat → ℤ) (t : Nat) (v : ℤ) :
    ((List.range W).map f).set t v
      = (List.range W).map (fun w => if t = w then v else f w) := by
  apply List.ext_getElem
  · simp
  · intro i h1 h2
    rw [List.getElem_set]
    simp only [List.getElem_map, List.getElem_range]

theorem run_cons_eq (s : DWState) (ev : DlEvent) (evs : List DlEvent) (s1 : DWState)
    (rep : Option ProgressReport) (hon : DownloadWatcher.on_event s ev = .ok (s1, rep))
    (sf : DWState) (reports : List ProgressReport)
    (hrun : DownloadWatcher.run s1 evs = .ok (sf, reports)) :
    DownloadWatcher.run s (ev :: evs) = .ok (sf, rep.toList ++ reports) := by
  simp only [DownloadWatcher.run, hon, hrun]

/-- Invariant of the progress phase: if the watcher state holds, for each
worker, the last speed seen over the already-processed events `done`, and
the accumulated size of `done`, then every subsequent report shows the
claimed per-worker-last-speed sum and delta sum. -/
theorem DownloadWatcher.run_progress_spec (W n : Nat) :
    ∀ (rest done : List DownloadProgressEventV) (s : DWState),
      s.entries_count = n →
      s.speeds = (List.range W).map (fun w => lastSpeed w done) →
      s.size = claimedSize done →
      (∀ e ∈ rest, e.thread_id < W) →
      ∃ sf reports,
        DownloadWatcher.run s (rest.map DlEvent.progress) = .ok (sf, reports)
        ∧ reports.length = rest.length
        ∧ ∀ i, ∀ hi : i < reports.length,
            (reports.get ⟨i, hi⟩).speed = claimedSpeed W (done ++ rest.take (i + 1))
            ∧ (reports.get ⟨i, hi⟩).size = claimedSize (done ++ rest.take (i + 1)) := by
  intro rest
  induction rest with
  | nil =>
      intro done s h1 h2 h3 h4
      exact ⟨s, [], rfl, rfl, fun i hi => absurd hi (by simp)⟩
  | cons e rest ih =>
      intro done s h1 h2 h3 h4
      have htid : e.thread_id < W := h4 e (List.mem_cons_self e rest)
      have hlen : s.speeds.length = W := by rw [h2]; simp
      have hon : DownloadWatcher.on_event s (DlEvent.progress e)
          = .ok ({ s with
                    speeds := s.speeds.set e.thread_id e.speed,
                    size := s.size + e.size },
              some ⟨(s.speeds.set e.thread_id e.speed).sum, e.count, s.entries_count,
                s.size + e.size⟩) := by
        simp only [DownloadWatcher.on_event]
        rw [if_pos (by rw [hlen]; exact htid)]
      have hspeeds : s.speeds.set e.thread_id e.speed
          = (List.range W).map (fun w => lastSpeed w (done ++ [e])) := by
        rw [h2, speeds_set_eq W _ e.thread_id e.speed]
        apply List.map_congr_left
        intro w hw
        rw [lastSpeed_append]
      have hsize : s.size + e.size = claimedSize (done ++ [e]) := by
        rw [h3]
        simp [claimedSize]
      obtain ⟨sf, reports, hrun, hlen2, hspec⟩ := ih (done ++ [e])
        { s with
            speeds := s.speeds.set e.thread_id e.speed,
            size := s.size + e.size }
        h1 hspeeds hsize (fun x hx => h4 x (List.mem_cons_of_mem e hx))
      refine ⟨sf,
        ⟨(s.speeds.set e.thread_id e.speed).sum, e.count, s.entries_count,
          s.size + e.size⟩ :: reports, ?_, ?_, ?_⟩
      · show DownloadWatcher.run s ((e :: rest).map DlEvent.progress) = _
        simp only [List.map_cons]
        exact run_cons_eq s (DlEvent.progress e) (rest.map DlEvent.progress) _ _ hon sf
          reports hrun
      · simpa using hlen2
      · intro i hi
        cases i with
        | zero =>
            constructor
            · show (s.speeds.set e.thread_id e.speed).sum
                = claimedSpeed W (done ++ (e :: rest).take 1)
              rw [hspeeds]
              rfl
            · show s.size + e.size = claimedSize (done ++ (e :: rest).take 1)
              rw [hsize]
              rfl
        | succ j =>
            have hj : j < reports.length := by
              have h5 := hi
              simp only [List.length_cons] at h5
              omega
            obtain ⟨hs1, hs2⟩ := hspec j hj
            constructor
            · show (reports.get ⟨j, hj⟩).speed
                = claimedSpeed W (done ++ (e :: rest).take (j + 1 + 1))
              rw [hs1]
              congr 1
              simp [List.take_succ_cons]
            · show (reports.get ⟨j, hj⟩).size
                = claimedSize (done ++ (e :: rest).take (j + 1 + 1))
              rw [hs2]
              congr 1
              simp [List.take_succ_cons]

/-- C9: after a `DownloadStartEvent` announcing `W` workers, every
progress report of `DownloadWatcher` shows a speed equal to the sum over
all `W` workers of that worker's most recently reported instantaneous
speed, and a size equal to the sum of all per-worker byte deltas received
so far. -/
theorem DownloadWatcher.aggregates (s0 : DWState) (n tsz W : Nat)
    (ps : List DownloadProgressEventV) (h : ∀ e ∈ ps, e.thread_id < W) :
    ∃ sf reports,
      DownloadWatcher.run s0 (DlEvent.start ⟨n, tsz, W⟩ :: ps.map DlEvent.progress)
        = .ok (sf, reports)
      ∧ reports.length = ps.length
      ∧ ∀ i, ∀ hi : i < reports.length,
          (reports.get ⟨i, hi⟩).speed = claimedSpeed W (ps.take (i + 1))
          ∧ (reports.get ⟨i, hi⟩).size = claimedSize (ps.take (i + 1)) := by
  have hstart : DownloadWatcher.on_event s0 (DlEvent.start ⟨n, tsz, W⟩)
      = .ok (⟨n, tsz, 0, List.replicate W 0⟩, none) := rfl
  have hrepl : (List.replicate W (0 : ℤ))
      = (List.range W).map (fun w => lastSpeed w []) := by
    have hf : (fun w => lastSpeed w ([] : List DownloadProgressEventV))
        = fun _ => (0 : ℤ) := by
      funext w
      rfl
    rw [hf, List.map_const', List.length_range]
  obtain ⟨sf, reports, hrun, hlen, hspec⟩ := DownloadWatcher.run_progress_spec W n
    ps [] ⟨n, tsz, 0, List.replicate W 0⟩ rfl (by rw [hrepl]) rfl h
  exact ⟨sf, reports,
    run_cons_eq s0 (DlEvent.start ⟨n, tsz, W⟩) (ps.map DlEvent.progress) _ none hstart
      sf reports hrun,
    hlen, fun i hi => hspec i hi⟩

/-- Witness for C9: two workers, a start event then one progress event
from each; the reports show the per-worker-last-speed sums (5, then
5 + 7 = 12) and the accumulated deltas (10, then 30). -/
theorem DownloadWatcher.aggregates_witness :
    DownloadWatcher.run ⟨0, 0, 0, []⟩
        (DlEvent.start ⟨3, 30, 2⟩
          :: ([⟨0, 1, 10, 5⟩, ⟨1, 2, 20, 7⟩] : List DownloadProgressEventV).map
            DlEvent.progress)
      = .ok (⟨3, 30, 30, [5, 7]⟩, [⟨5, 1, 3, 10⟩, ⟨12, 2, 3, 30⟩])
    ∧ claimedSpeed 2 [⟨0, 1, 10, 5⟩] = 5
    ∧ claimedSpeed 2 [⟨0, 1, 10, 5⟩, ⟨1, 2, 20, 7⟩] = 12
    ∧ claimedSize ([⟨0, 1, 10, 5⟩] : List DownloadProgressEventV) = 10
    ∧ claimedSize ([⟨0, 1, 10, 5⟩, ⟨1, 2, 20, 7⟩] : List DownloadProgressEventV) = 30 := by
  have h := DownloadWatcher.aggregates ⟨0, 0, 0, []⟩ 3 30 2
    [⟨0, 1, 10, 5⟩, ⟨1, 2, 20, 7⟩] (by decide)
  exact ⟨by rfl, by decide, by decide, by decide, by decide⟩
